import Mathlib

/-!
Verification of the ADBS fuel-table bench-test firmware
(`src/FuelTableCAN-Serial.cpp`).

The embedding below translates the sensor decoders, the cached CAN
telemetry reader, the CSV telemetry streamer and the bang-bang pitch
controller into executable Lean definitions.  Bytes are modelled as
`Fin 256` (the C++ `byte`/`unsigned char` type), pitch angles as `ℚ`
(the firmware's float arithmetic `raw / 32768.0 * 180.0` is exact for
16-bit raw values, and all thresholds are decimal literals), and the
asynchronous serial/CAN inputs as explicit values threaded through the
functions.  The pitch controller's five near-identical adjustment
routines are expressed as one parametrized routine plus five instances
carrying each routine's literal band constants.
-/

namespace FuelTable

/-- A byte, the C++ `unsigned char` / `byte` type. -/
abbrev Byte := Fin 256

/-- Reinterpret a 16-bit word as the C++ `int16_t` it is cast to. -/
def toInt16 (w : ℕ) : ℤ :=
  if w < 32768 then (w : ℤ) else (w : ℤ) - 65536

/-! ## Bus telemetry reader (`readCANData`, lines 790-828)

The reader keeps a cache (`static CANData lastValidData`) initialised to
`{"No Data", "No Data", "No Data", false}`.  A poll with no pending CAN
message returns the cache; a pending message of payload length ≥ 6 is
decoded as three 16-bit big-endian words and replaces every cached
field; a shorter message leaves the cache untouched. -/

/-- The fields of the C++ `CANData` struct (line 18). -/
structure CANData where
  fuelLevel : String
  internalTemp : String
  externalTemp : String
  externalSensorValid : Bool
deriving DecidableEq, Repr

/-- The initial cache value `{"No Data", "No Data", "No Data", false}` (line 791). -/
def noData : CANData := ⟨"No Data", "No Data", "No Data", false⟩

/-- `(hi << 8) | lo` on bytes: the big-endian 16-bit words of the CAN frame. -/
def word16BE (hi lo : Byte) : ℕ := hi.val * 256 + lo.val

/-- Decode of a CAN payload of length ≥ 6 (lines 800-823): fuel level and
internal temperature verbatim, external temperature through the three
sentinel codes `0xFFFF / 0x8001 / 0x8002`. -/
def decodeFuelFrame (rxBuf : List Byte) : CANData :=
  let level := word16BE (rxBuf.getD 0 0) (rxBuf.getD 1 0)
  let internalTemp := word16BE (rxBuf.getD 2 0) (rxBuf.getD 3 0)
  let externalTemp := word16BE (rxBuf.getD 4 0) (rxBuf.getD 5 0)
  let ext : String × Bool :=
    if externalTemp = 0xFFFF then ("Disabled", false)
    else if externalTemp = 0x8001 then ("Open Circuit", false)
    else if externalTemp = 0x8002 then ("Short Circuit", false)
    else (toString externalTemp, true)
  { fuelLevel := toString level
    internalTemp := toString internalTemp
    externalTemp := ext.1
    externalSensorValid := ext.2 }

/-- One poll of `readCANData` (lines 790-828).  `msg` is the pending CAN
message, if any (`CAN.checkReceive() == CAN_MSGAVAIL`); its list length is
the received `len`.  The cache is updated only by a message with
`len >= 6`, and then wholesale. -/
def readCANData (cache : CANData) (msg : Option (List Byte)) : CANData :=
  match msg with
  | none => cache
  | some rxBuf => if 6 ≤ rxBuf.length then decodeFuelFrame rxBuf else cache

/-! ## Angle reader (`readPitch`, lines 283-302)

The serial receive buffer is a list of bytes.  `readPitch` returns the
decoded pitch (or the `-999.0` sentinel) together with the bytes left in
the buffer.  The firmware waits for 11 buffered bytes, consumes one
header byte, and only when that byte is the sync mark `0x55` consumes
nine further bytes; the angle is decoded from a frame whose second byte
is `0x53`. -/

/-- The firmware's "no valid sample" sentinel `-999.0`. -/
def invalidPitch : ℚ := -999

/-- `pitch_raw / 32768.0 * 180.0` where
`int16_t pitch_raw = (buffer[3] << 8) | buffer[2]` (lines 294-295). -/
def pitchOfRaw (lo hi : Byte) : ℚ :=
  (toInt16 (hi.val * 256 + lo.val) : ℚ) / 32768 * 180

/-- `readPitch` (lines 283-302) on the buffered bytes: result and
remaining buffer. -/
def readPitch (buf : List Byte) : ℚ × List Byte :=
  if 11 ≤ buf.length then
    match buf with
    | [] => (invalidPitch, buf)
    | header :: rest =>
      if header = (0x55 : Byte) then
        let buffer := header :: rest.take 9
        let remaining := rest.drop 9
        if buffer.getD 1 0 = (0x53 : Byte) then
          (pitchOfRaw (buffer.getD 2 0) (buffer.getD 3 0), remaining)
        else
          (invalidPitch, remaining)
      else
        (invalidPitch, rest)
  else
    (invalidPitch, buf)

/-- The controller's rejection test
`pitch == -999.0 || pitch < -25.0 || pitch > 25.0`
(lines 310, 312, 318, ...). -/
def isInvalidPitch (p : ℚ) : Bool :=
  decide (p = -999 ∨ p < -25 ∨ p > 25)

/-! ## Telemetry streamer (`streamCSVData`, lines 831-870)

One call reads a pitch sample and the cached CAN data and emits a CSV
record only when `pitch != -999.0 && pitch >= -25.0 && pitch <= 25.0`
(line 837); otherwise nothing is written. -/

/-- One CSV record
`elapsedTime,fuelLevel,internalTemp,externalTemp,pitch,phase,direction`
(lines 839-851). -/
structure CSVRecord where
  elapsedMs : ℕ
  fuelLevel : String
  internalTemp : String
  externalTemp : String
  pitch : ℚ
  phase : String
  direction : String
deriving DecidableEq, Repr

/-- The record (if any) written by one `streamCSVData` call, given the
pitch sample, the CAN cache value and the elapsed time. -/
def streamCSVData (pitch : ℚ) (canData : CANData) (elapsedTime : ℕ)
    (phase direction : String) : Option CSVRecord :=
  if pitch ≠ -999 ∧ -25 ≤ pitch ∧ pitch ≤ 25 then
    some ⟨elapsedTime, canData.fuelLevel, canData.internalTemp,
          canData.externalTemp, pitch, phase, direction⟩
  else
    none

/-! ## Actuator driver (lines 262-281)

`moveMotorForward` / `moveMotorBackward` / `stopMotor` each set the two
L298N direction pins and the enable PWM unconditionally; the motor is in
exactly one of three states. -/

/-- Motor drive direction. -/
inductive MotorDir
  | forward
  | backward
deriving DecidableEq, Repr

/-- A motor command issued by the controller. -/
inductive MotorCmd
  | drive (d : MotorDir)
  | stop
deriving DecidableEq, Repr

/-- Actuator state: moving forward, moving backward, or stopped. -/
inductive MotorState
  | movingForward
  | movingBackward
  | stopped
deriving DecidableEq, Repr

/-- Effect of one command: `moveMotorForward`, `moveMotorBackward`,
`stopMotor` (lines 262-281). -/
def execCmd (_s : MotorState) : MotorCmd → MotorState
  | MotorCmd.drive MotorDir.forward => MotorState.movingForward
  | MotorCmd.drive MotorDir.backward => MotorState.movingBackward
  | MotorCmd.stop => MotorState.stopped

/-- Motor state after a list of commands. -/
def execTrace (s : MotorState) (cmds : List MotorCmd) : MotorState :=
  cmds.foldl execCmd s

/-- The physical pins `MOTOR_IN1`, `MOTOR_IN2` and the `MOTOR_ENA`
PWM value written for a motor state (lines 262-281). -/
structure MotorPins where
  in1 : Bool
  in2 : Bool
  ena : ℕ
deriving DecidableEq, Repr

/-- Pin configuration of each motor state:
forward = `(HIGH, LOW, 255)`, backward = `(LOW, HIGH, 255)`,
stopped = `(LOW, LOW, 0)`. -/
def pinsOf : MotorState → MotorPins
  | MotorState.movingForward => ⟨true, false, 255⟩
  | MotorState.movingBackward => ⟨false, true, 255⟩
  | MotorState.stopped => ⟨false, false, 0⟩

/-- Number of drive (motion-pulse) commands in a trace. -/
def driveCount (cmds : List MotorCmd) : ℕ :=
  cmds.countP fun c => match c with
    | MotorCmd.drive _ => true
    | MotorCmd.stop => false

/-! ## Pitch controller (lines 304-787)

The five adjustment routines (`adjustToZeroPitch`, `adjustToPosFivePitch`,
`adjustToPosTenPitch`, `adjustToNegFivePitch`, `adjustToNegTenPitch`,
plus `returnToZeroPitch`) share one algorithm; they differ only in the
band constants, the direction choice and whether the pulse/stabilize
windows stream telemetry (and therefore poll `readPitch`).

The angle source is abstracted as `src : ℕ → ℚ`, the value returned by
the n-th `readPitch` call (`-999` for "no valid sample"); the model
threads the index of the next poll.  `windowPolls` is the number of
`streamCSVData` calls — each of which polls `readPitch` once — performed
during one 200 ms pulse window plus one 1000 ms stabilization window
(`adjustToZeroPitch` instantiates it with 0: it runs before headers are
written and streams nothing, lines 337-339). -/

/-- `maxTimeout`, the retry budget of the valid-pitch acquisition loops
(line 307 and twins). -/
def maxTimeout : ℕ := 1000

/-- The `delay(10)` between failed read attempts (line 313 and twins). -/
def retryDelayMs : ℕ := 10

/-- Result of one bounded acquisition loop: the final `pitch` variable,
the index of the next unread poll, and the total delay time spent. -/
structure AcquireResult where
  pitch : ℚ
  next : ℕ
  elapsedMs : ℕ
deriving Repr

/-- The loop
`while ((pitch == -999.0 || pitch < -25.0 || pitch > 25.0) && timeoutCounter < maxTimeout)`
(lines 310-316 and twins), with `budget = maxTimeout - timeoutCounter`. -/
def acquirePitchAux (src : ℕ → ℚ) : ℕ → ℚ → ℕ → ℕ → AcquireResult
  | 0, pitch, n, t => ⟨pitch, n, t⟩
  | budget + 1, pitch, n, t =>
    if isInvalidPitch pitch then
      let p := src n
      if isInvalidPitch p then
        acquirePitchAux src budget p (n + 1) (t + retryDelayMs)
      else
        ⟨p, n + 1, t⟩
    else
      ⟨pitch, n, t⟩

/-- One full bounded acquisition starting from `pitch = -999.0`,
`timeoutCounter = 0`. -/
def acquirePitch (src : ℕ → ℚ) (n : ℕ) : AcquireResult :=
  acquirePitchAux src maxTimeout invalidPitch n 0

/-- Outcome of an adjustment routine.  The C++ routines report these by
diagnostic message: initial acquisition failure returns early (line 318),
losing the signal mid-adjustment breaks out (line 353), convergence falls
through to the final `stopMotor()`.  `fuelExhausted` is a model artifact
bounding the unbounded C++ `while` loop. -/
inductive Outcome
  | reached (final : ℚ)
  | lostSignal
  | initialReadFailed
  | fuelExhausted
deriving DecidableEq, Repr

/-- The bang-bang adjustment loop (lines 326-360 and twins), generic in
the out-of-band test and the direction choice.  Each iteration issues the
chosen drive command, runs the pulse window, stops, runs the
stabilization window (`windowPolls` telemetry polls in total), and
re-acquires a valid sample; failure to re-acquire breaks out to the final
`stopMotor()`.  Returns the outcome, the motor-command trace and the next
poll index. -/
def adjustLoop (outOfBand : ℚ → Bool) (chooseDir : ℚ → Option MotorDir)
    (windowPolls : ℕ) (src : ℕ → ℚ) :
    ℕ → ℚ → ℕ → Outcome × List MotorCmd × ℕ
  | 0, _, n => (Outcome.fuelExhausted, [], n)
  | fuel + 1, pitch, n =>
    if outOfBand pitch then
      let preTrace : List MotorCmd :=
        match chooseDir pitch with
        | some d => [MotorCmd.drive d, MotorCmd.stop]
        | none => [MotorCmd.stop]
      let r := acquirePitch src (n + windowPolls)
      if isInvalidPitch r.pitch then
        (Outcome.lostSignal, preTrace ++ [MotorCmd.stop], r.next)
      else
        let res := adjustLoop outOfBand chooseDir windowPolls src fuel r.pitch r.next
        (res.1, preTrace ++ res.2.1, res.2.2)
    else
      (Outcome.reached pitch, [MotorCmd.stop], n)

/-- One adjustment routine: bounded initial acquisition (returning early
on failure, lines 318-321 and twins) followed by the bang-bang loop. -/
def driveToTarget (outOfBand : ℚ → Bool) (chooseDir : ℚ → Option MotorDir)
    (windowPolls : ℕ) (src : ℕ → ℚ) (fuel n0 : ℕ) :
    Outcome × List MotorCmd × ℕ :=
  let r := acquirePitch src n0
  if isInvalidPitch r.pitch then
    (Outcome.initialReadFailed, [], r.next)
  else
    adjustLoop outOfBand chooseDir windowPolls src fuel r.pitch r.next

/-- `while (abs(pitch) > 0.1)` (lines 326 and 391). -/
def zeroOutOfBand (p : ℚ) : Bool := decide (|p| > 1/10)

/-- `if (pitch > 0) moveMotorForward() else moveMotorBackward()`
(lines 327-335 and 392-398). -/
def zeroDir (p : ℚ) : Option MotorDir :=
  if p > 0 then some MotorDir.forward else some MotorDir.backward

/-- `while (pitch < 4.9 || pitch > 5.1)` (line 483). -/
def posFiveOutOfBand (p : ℚ) : Bool := decide (p < 49/10 ∨ p > 51/10)

/-- `if (pitch > 5.1) forward else if (pitch < 4.9) backward` (lines 484-492). -/
def posFiveDir (p : ℚ) : Option MotorDir :=
  if p > 51/10 then some MotorDir.forward
  else if p < 49/10 then some MotorDir.backward
  else none

/-- `while (pitch < 9.9 || pitch > 10.1)` (line 567). -/
def posTenOutOfBand (p : ℚ) : Bool := decide (p < 99/10 ∨ p > 101/10)

/-- `if (pitch > 10.1) forward else if (pitch < 9.9) backward` (lines 568-576). -/
def posTenDir (p : ℚ) : Option MotorDir :=
  if p > 101/10 then some MotorDir.forward
  else if p < 99/10 then some MotorDir.backward
  else none

/-- `while (pitch < -5.1 || pitch > -4.9)` (line 649). -/
def negFiveOutOfBand (p : ℚ) : Bool := decide (p < -51/10 ∨ p > -49/10)

/-- `if (pitch < -5.1) backward else if (pitch > -4.9) forward` (lines 650-658). -/
def negFiveDir (p : ℚ) : Option MotorDir :=
  if p < -51/10 then some MotorDir.backward
  else if p > -49/10 then some MotorDir.forward
  else none

/-- `while (pitch < -10.1 || pitch > -9.9)` (line 731). -/
def negTenOutOfBand (p : ℚ) : Bool := decide (p < -101/10 ∨ p > -99/10)

/-- `if (pitch < -10.1) backward else if (pitch > -9.9) forward` (lines 732-740). -/
def negTenDir (p : ℚ) : Option MotorDir :=
  if p < -101/10 then some MotorDir.backward
  else if p > -99/10 then some MotorDir.forward
  else none

/-- `adjustToZeroPitch` (lines 304-364): target 0, band `|pitch| ≤ 0.1`,
no telemetry during the pulse/stabilize windows (plain `delay`,
lines 337-339), hence 0 window polls. -/
def adjustToZeroPitch (src : ℕ → ℚ) (fuel n0 : ℕ) :
    Outcome × List MotorCmd × ℕ :=
  driveToTarget zeroOutOfBand zeroDir 0 src fuel n0

/-- `returnToZeroPitch` (lines 367-456): target 0, same band, telemetry
streamed during the windows. -/
def returnToZeroPitch (src : ℕ → ℚ) (fuel windowPolls n0 : ℕ) :
    Outcome × List MotorCmd × ℕ :=
  driveToTarget zeroOutOfBand zeroDir windowPolls src fuel n0

/-- `adjustToPosFivePitch` (lines 460-539). -/
def adjustToPosFivePitch (src : ℕ → ℚ) (fuel windowPolls n0 : ℕ) :
    Outcome × List MotorCmd × ℕ :=
  driveToTarget posFiveOutOfBand posFiveDir windowPolls src fuel n0

/-- `adjustToPosTenPitch` (lines 543-623). -/
def adjustToPosTenPitch (src : ℕ → ℚ) (fuel windowPolls n0 : ℕ) :
    Outcome × List MotorCmd × ℕ :=
  driveToTarget posTenOutOfBand posTenDir windowPolls src fuel n0

/-- `adjustToNegFivePitch` (lines 626-705). -/
def adjustToNegFivePitch (src : ℕ → ℚ) (fuel windowPolls n0 : ℕ) :
    Outcome × List MotorCmd × ℕ :=
  driveToTarget negFiveOutOfBand negFiveDir windowPolls src fuel n0

/-- `adjustToNegTenPitch` (lines 708-787). -/
def adjustToNegTenPitch (src : ℕ → ℚ) (fuel windowPolls n0 : ℕ) :
    Outcome × List MotorCmd × ℕ :=
  driveToTarget negTenOutOfBand negTenDir windowPolls src fuel n0

/-- The full motor-command trace of one test cycle: `stopMotor()` in
`setup` (line 117), `adjustToZeroPitch` (line 120), then the `loop` body
(lines 155-249): `adjustToPosFivePitch`, `stopMotor`,
`adjustToNegFivePitch`, `stopMotor`, `adjustToPosTenPitch`, `stopMotor`,
`adjustToNegTenPitch`, `stopMotor`, `returnToZeroPitch`. -/
def testCycleTrace (src : ℕ → ℚ) (fuel windowPolls : ℕ) : List MotorCmd :=
  let r0 := adjustToZeroPitch src fuel 0
  let r1 := adjustToPosFivePitch src fuel windowPolls r0.2.2
  let r2 := adjustToNegFivePitch src fuel windowPolls r1.2.2
  let r3 := adjustToPosTenPitch src fuel windowPolls r2.2.2
  let r4 := adjustToNegTenPitch src fuel windowPolls r3.2.2
  let r5 := returnToZeroPitch src fuel windowPolls r4.2.2
  MotorCmd.stop ::
    (r0.2.1 ++ r1.2.1 ++ MotorCmd.stop ::
      (r2.2.1 ++ MotorCmd.stop ::
        (r3.2.1 ++ MotorCmd.stop ::
          (r4.2.1 ++ MotorCmd.stop :: r5.2.1))))

/-- A trace consists only of complete motion pulses (a drive command
immediately followed by its stop) and bare stop commands. -/
def pulsesOnly : List MotorCmd → Bool
  | [] => true
  | MotorCmd.stop :: r => pulsesOnly r
  | MotorCmd.drive _ :: MotorCmd.stop :: r => pulsesOnly r
  | MotorCmd.drive _ :: MotorCmd.drive _ :: _ => false
  | [MotorCmd.drive _] => false

/-- Scan for two drive commands with no stop in between; `armed` records
whether a drive has been seen since the last stop. -/
def sepFrom : Bool → List MotorCmd → Bool
  | _, [] => true
  | _, MotorCmd.stop :: r => sepFrom false r
  | armed, MotorCmd.drive _ :: r => if armed then false else sepFrom true r

/-- Between any two drive commands of the trace there is an intervening
stop command. -/
def wellSeparated (cmds : List MotorCmd) : Bool := sepFrom false cmds

/-! ## Helper lemmas -/

/-- A `streamCSVData` call emits a record exactly when the controller's
validity test accepts the sample. -/
theorem streamCSVData_isSome (p : ℚ) (can : CANData) (e : ℕ) (ph d : String) :
    (streamCSVData p can e ph d).isSome = !isInvalidPitch p := by
  cases hb : isInvalidPitch p with
  | false =>
    have hnot : ¬(p = -999 ∨ p < -25 ∨ p > 25) := by
      simpa [isInvalidPitch] using hb
    push_neg at hnot
    simp [streamCSVData, hnot.1, hnot.2.1, hnot.2.2]
  | true =>
    have hor : p = -999 ∨ p < -25 ∨ p > 25 := by
      simpa [isInvalidPitch] using hb
    have hnot : ¬(p ≠ -999 ∧ -25 ≤ p ∧ p ≤ 25) := by
      rintro ⟨h1, h2, h3⟩
      rcases hor with h | h | h
      · exact h1 h
      · linarith
      · linarith
    simp [streamCSVData, hnot]

/-- An acquisition loop over a source that never yields a valid sample
runs through its whole budget: one poll and one retry delay per budget
unit, ending on an invalid sample. -/
theorem acquirePitchAux_all_invalid (src : ℕ → ℚ)
    (hsrc : ∀ k, isInvalidPitch (src k) = true) :
    ∀ (b n t : ℕ) (pitch : ℚ), isInvalidPitch pitch = true →
      isInvalidPitch (acquirePitchAux src b pitch n t).pitch = true ∧
      (acquirePitchAux src b pitch n t).next = n + b ∧
      (acquirePitchAux src b pitch n t).elapsedMs = t + retryDelayMs * b := by
  intro b
  induction b with
  | zero =>
    intro n t pitch hp
    simp [acquirePitchAux, hp]
  | succ b ih =>
    intro n t pitch hp
    simp only [acquirePitchAux, hp, if_true, hsrc n]
    obtain ⟨h1, h2, h3⟩ := ih (n + 1) (t + retryDelayMs) (src n) (hsrc n)
    refine ⟨h1, ?_, ?_⟩
    · rw [h2]; omega
    · rw [h3]; simp [retryDelayMs]; ring

/-- An acquisition whose first poll is already valid returns that sample
after exactly one poll and no retry delay. -/
theorem acquirePitch_first_valid (src : ℕ → ℚ) (n : ℕ)
    (h : isInvalidPitch (src n) = false) :
    acquirePitch src n = ⟨src n, n + 1, 0⟩ := by
  rw [acquirePitch, show maxTimeout = 999 + 1 from rfl]
  simp [acquirePitchAux, h, show isInvalidPitch invalidPitch = true from by decide]

/-- Traces consisting only of complete pulses are free of back-to-back
drive commands. -/
theorem pulsesOnly_sepFrom : ∀ l : List MotorCmd,
    pulsesOnly l = true → sepFrom false l = true
  | [] => fun _ => rfl
  | MotorCmd.stop :: r => fun h => by
      have hr : pulsesOnly r = true := by simpa [pulsesOnly] using h
      simpa [sepFrom] using pulsesOnly_sepFrom r hr
  | MotorCmd.drive d :: MotorCmd.stop :: r => fun h => by
      have hr : pulsesOnly r = true := by simpa [pulsesOnly] using h
      simpa [sepFrom] using pulsesOnly_sepFrom r hr
  | MotorCmd.drive d :: MotorCmd.drive e :: r => fun h => by
      simp [pulsesOnly] at h
  | [MotorCmd.drive d] => fun h => by
      simp [pulsesOnly] at h

/-- Concatenating pulse-only traces yields a pulse-only trace. -/
theorem pulsesOnly_append : ∀ a b : List MotorCmd,
    pulsesOnly a = true → pulsesOnly b = true → pulsesOnly (a ++ b) = true
  | [], _ => fun _ hb => hb
  | MotorCmd.stop :: r, b => fun ha hb => by
      have hr : pulsesOnly r = true := by simpa [pulsesOnly] using ha
      simpa [pulsesOnly] using pulsesOnly_append r b hr hb
  | MotorCmd.drive d :: MotorCmd.stop :: r, b => fun ha hb => by
      have hr : pulsesOnly r = true := by simpa [pulsesOnly] using ha
      simpa [pulsesOnly] using pulsesOnly_append r b hr hb
  | MotorCmd.drive d :: MotorCmd.drive e :: r, _ => fun ha _ => by
      simp [pulsesOnly] at ha
  | [MotorCmd.drive d], _ => fun ha _ => by
      simp [pulsesOnly] at ha

/-- A leading bare stop does not affect pulse-only structure. -/
theorem pulsesOnly_stop_cons (l : List MotorCmd) :
    pulsesOnly (MotorCmd.stop :: l) = pulsesOnly l := by
  simp [pulsesOnly]

/-- Gluing two pulse-only traces with the explicit `stopMotor()` the
`loop` body issues between adjustments keeps the trace pulse-only. -/
theorem pulsesOnly_glue {a b : List MotorCmd}
    (ha : pulsesOnly a = true) (hb : pulsesOnly b = true) :
    pulsesOnly (a ++ MotorCmd.stop :: b) = true :=
  pulsesOnly_append a (MotorCmd.stop :: b) ha (by simpa [pulsesOnly] using hb)

/-- Every trace of the bang-bang loop is a sequence of complete pulses
and bare stops. -/
theorem adjustLoop_pulsesOnly (outOfBand : ℚ → Bool) (chooseDir : ℚ → Option MotorDir)
    (windowPolls : ℕ) (src : ℕ → ℚ) :
    ∀ (fuel : ℕ) (pitch : ℚ) (n : ℕ),
      pulsesOnly (adjustLoop outOfBand chooseDir windowPolls src fuel pitch n).2.1 = true := by
  intro fuel
  induction fuel with
  | zero =>
    intro pitch n
    simp [adjustLoop, pulsesOnly]
  | succ f ih =>
    intro pitch n
    simp only [adjustLoop]
    cases hb : outOfBand pitch with
    | false => simp [hb, pulsesOnly]
    | true =>
      simp only [hb, if_true]
      cases hr : isInvalidPitch (acquirePitch src (n + windowPolls)).pitch with
      | true =>
        cases hcd : chooseDir pitch with
        | none => simp [hcd, hr, pulsesOnly]
        | some d => simp [hcd, hr, pulsesOnly]
      | false =>
        cases hcd : chooseDir pitch with
        | none =>
          simp only [hcd, hr, Bool.false_eq_true, if_false]
          exact pulsesOnly_append _ _ (by simp [pulsesOnly]) (ih _ _)
        | some d =>
          simp only [hcd, hr, Bool.false_eq_true, if_false]
          exact pulsesOnly_append _ _ (by simp [pulsesOnly]) (ih _ _)

/-- Every trace of an adjustment routine is a sequence of complete
pulses and bare stops. -/
theorem driveToTarget_pulsesOnly (outOfBand : ℚ → Bool) (chooseDir : ℚ → Option MotorDir)
    (windowPolls : ℕ) (src : ℕ → ℚ) (fuel n0 : ℕ) :
    pulsesOnly (driveToTarget outOfBand chooseDir windowPolls src fuel n0).2.1 = true := by
  simp only [driveToTarget]
  cases hr : isInvalidPitch (acquirePitch src n0).pitch with
  | true => simp [hr, pulsesOnly]
  | false =>
    simp only [hr, Bool.false_eq_true, if_false]
    exact adjustLoop_pulsesOnly outOfBand chooseDir windowPolls src fuel _ _

/-! ## Claim theorems -/

/-- C1: a 10-byte angle frame with sync byte `0x55` and frame-type byte
`0x53` (buffered together with the extra byte the firmware waits for)
decodes to the signed 16-bit little-endian field — byte 2 as LSB, byte 3
as MSB — scaled by `/32768*180`, consuming exactly the frame; and both
the controller's validity test and the streamer reject any pitch outside
`[-25, 25]` degrees, whatever its origin. -/
theorem C1_angle_decode_and_envelope :
    (∀ (b2 b3 b4 b5 b6 b7 b8 b9 : Byte) (rest : List Byte), rest ≠ [] →
      readPitch (0x55 :: 0x53 :: b2 :: b3 :: b4 :: b5 :: b6 :: b7 :: b8 :: b9 :: rest) =
        ((toInt16 (b3.val * 256 + b2.val) : ℚ) / 32768 * 180, rest))
  ∧ (∀ p : ℚ, p < -25 ∨ 25 < p →
      isInvalidPitch p = true ∧
      ∀ (can : CANData) (e : ℕ) (ph d : String),
        streamCSVData p can e ph d = none) := by
  constructor
  · intro b2 b3 b4 b5 b6 b7 b8 b9 rest hrest
    have hpos : 0 < rest.length := List.length_pos.mpr hrest
    have hlen : 11 ≤ (0x55 :: 0x53 :: b2 :: b3 :: b4 :: b5 :: b6 :: b7 :: b8 :: b9 ::
        rest : List Byte).length := by
      simp only [List.length_cons]
      omega
    rw [readPitch, if_pos hlen]
    rfl
  · intro p hp
    constructor
    · apply decide_eq_true
      rcases hp with h | h
      · exact Or.inr (Or.inl h)
      · exact Or.inr (Or.inr h)
    · intro can e ph d
      have hnot : ¬(p ≠ -999 ∧ -25 ≤ p ∧ p ≤ 25) := by
        rintro ⟨h1, h2, h3⟩
        rcases hp with h | h <;> linarith
      simp [streamCSVData, hnot]

/-- Witness for C1 at a concrete frame (raw field `0x0010`, i.e. 16) and
at the out-of-envelope pitch 30. -/
theorem C1_witness :
    readPitch [0x55, 0x53, 0x10, 0, 0, 0, 0, 0, 0, 0, 0] =
      ((toInt16 ((0 : Byte).val * 256 + (0x10 : Byte).val) : ℚ) / 32768 * 180,
        ([0] : List Byte)) ∧
    (isInvalidPitch 30 = true ∧
      ∀ (can : CANData) (e : ℕ) (ph d : String),
        streamCSVData 30 can e ph d = none) :=
  ⟨C1_angle_decode_and_envelope.1 0x10 0 0 0 0 0 0 0 [0] (by decide),
   C1_angle_decode_and_envelope.2 30 (Or.inr (by norm_num))⟩

/-- C5: for a CAN payload of length ≥ 6, the external-temperature word
maps `0xFFFF`, `0x8001`, `0x8002` to the `Disabled` / `Open Circuit` /
`Short Circuit` sentinels with `externalSensorValid = false`, and every
other 16-bit value to itself with `externalSensorValid = true`; such a
frame is what a poll decodes. -/
theorem C5_external_temp_sentinels (frame : List Byte) (h6 : 6 ≤ frame.length) :
    (word16BE (frame.getD 4 0) (frame.getD 5 0) = 0xFFFF →
      (decodeFuelFrame frame).externalTemp = "Disabled" ∧
      (decodeFuelFrame frame).externalSensorValid = false)
  ∧ (word16BE (frame.getD 4 0) (frame.getD 5 0) = 0x8001 →
      (decodeFuelFrame frame).externalTemp = "Open Circuit" ∧
      (decodeFuelFrame frame).externalSensorValid = false)
  ∧ (word16BE (frame.getD 4 0) (frame.getD 5 0) = 0x8002 →
      (decodeFuelFrame frame).externalTemp = "Short Circuit" ∧
      (decodeFuelFrame frame).externalSensorValid = false)
  ∧ (word16BE (frame.getD 4 0) (frame.getD 5 0) ≠ 0xFFFF →
      word16BE (frame.getD 4 0) (frame.getD 5 0) ≠ 0x8001 →
      word16BE (frame.getD 4 0) (frame.getD 5 0) ≠ 0x8002 →
      (decodeFuelFrame frame).externalTemp =
        toString (word16BE (frame.getD 4 0) (frame.getD 5 0)) ∧
      (decodeFuelFrame frame).externalSensorValid = true)
  ∧ (∀ cache : CANData, readCANData cache (some frame) = decodeFuelFrame frame) := by
  refine ⟨?_, ?_, ?_, ?_, ?_⟩
  · intro hw
    simp only [decodeFuelFrame]
    rw [hw]
    norm_num
  · intro hw
    simp only [decodeFuelFrame]
    rw [hw]
    norm_num
  · intro hw
    simp only [decodeFuelFrame]
    rw [hw]
    norm_num
  · intro h1 h2 h3
    simp only [decodeFuelFrame]
    rw [if_neg h1, if_neg h2, if_neg h3]
    exact ⟨rfl, rfl⟩
  · intro cache
    simp [readCANData, h6]

/-- Concrete sentinel frames for the C5 witness. -/
def c5FrameDisabled : List Byte := [0, 1, 0, 2, 0xFF, 0xFF]

/-- Concrete open-circuit frame for the C5 witness. -/
def c5FrameOpen : List Byte := [0, 1, 0, 2, 0x80, 0x01]

/-- Concrete short-circuit frame for the C5 witness. -/
def c5FrameShort : List Byte := [0, 1, 0, 2, 0x80, 0x02]

/-- Concrete normal frame for the C5 witness. -/
def c5FrameNormal : List Byte := [0, 1, 0, 2, 0x12, 0x34]

/-- Witness for C5 at the three sentinel words and one normal word. -/
theorem C5_witness :
    ((decodeFuelFrame c5FrameDisabled).externalTemp = "Disabled" ∧
      (decodeFuelFrame c5FrameDisabled).externalSensorValid = false) ∧
    ((decodeFuelFrame c5FrameOpen).externalTemp = "Open Circuit" ∧
      (decodeFuelFrame c5FrameOpen).externalSensorValid = false) ∧
    ((decodeFuelFrame c5FrameShort).externalTemp = "Short Circuit" ∧
      (decodeFuelFrame c5FrameShort).externalSensorValid = false) ∧
    ((decodeFuelFrame c5FrameNormal).externalTemp =
        toString (word16BE (c5FrameNormal.getD 4 0) (c5FrameNormal.getD 5 0)) ∧
      (decodeFuelFrame c5FrameNormal).externalSensorValid = true) :=
  ⟨(C5_external_temp_sentinels c5FrameDisabled (by decide)).1 (by decide),
   (C5_external_temp_sentinels c5FrameOpen (by decide)).2.1 (by decide),
   (C5_external_temp_sentinels c5FrameShort (by decide)).2.2.1 (by decide),
   (C5_external_temp_sentinels c5FrameNormal (by decide)).2.2.2.1
     (by decide) (by decide) (by decide)⟩

/-- C6: a poll with a CAN payload shorter than 6 bytes (or with no
pending message) leaves the cached data unchanged; a payload of length
≥ 6 replaces every cached field at once with the decode of that single
frame, independently of the previous cache. -/
theorem C6_cache_all_or_nothing :
    (∀ cache : CANData, readCANData cache none = cache)
  ∧ (∀ (cache : CANData) (frame : List Byte), frame.length < 6 →
      readCANData cache (some frame) = cache)
  ∧ (∀ (cacheA cacheB : CANData) (frame : List Byte), 6 ≤ frame.length →
      readCANData cacheA (some frame) = decodeFuelFrame frame ∧
      readCANData cacheB (some frame) = readCANData cacheA (some frame)) := by
  refine ⟨fun cache => rfl, ?_, ?_⟩
  · intro cache frame h
    simp [readCANData, not_le.mpr h]
  · intro cacheA cacheB frame h
    simp [readCANData, h]

/-- Witness for C6 at a 3-byte frame and a 6-byte frame. -/
theorem C6_witness :
    readCANData noData (some [1, 2, 3]) = noData ∧
    readCANData noData (some [1, 2, 3, 4, 5, 6]) =
      decodeFuelFrame [1, 2, 3, 4, 5, 6] :=
  ⟨C6_cache_all_or_nothing.2.1 noData [1, 2, 3] (by decide),
   (C6_cache_all_or_nothing.2.2 noData noData [1, 2, 3, 4, 5, 6] (by decide)).1⟩

/-- C8: an emit call whose pitch sample is rejected (invalid sentinel or
out of the ±25° envelope) writes no record; over any sequence of polls, a
record is produced exactly on the polls whose sample is accepted. -/
theorem C8_streamer_gating :
    (∀ (p : ℚ) (can : CANData) (e : ℕ) (ph d : String),
        isInvalidPitch p = true → streamCSVData p can e ph d = none)
  ∧ (∀ (samples : List ℚ) (can : CANData) (e : ℕ) (ph d : String),
        samples.map (fun p => (streamCSVData p can e ph d).isSome) =
          samples.map (fun p => !isInvalidPitch p)) := by
  constructor
  · intro p can e ph d hp
    have hb := streamCSVData_isSome p can e ph d
    rw [hp] at hb
    simpa using hb
  · intro samples can e ph d
    apply List.map_congr_left
    intro p _
    exact streamCSVData_isSome p can e ph d

/-- Witness for C8 at the invalid sentinel and an out-of-envelope pitch. -/
theorem C8_witness :
    streamCSVData (-999) noData 0 "Stationary1" "None" = none ∧
    streamCSVData 30 noData 0 "Stationary1" "None" = none :=
  ⟨C8_streamer_gating.1 (-999) noData 0 "Stationary1" "None" (by decide),
   C8_streamer_gating.1 30 noData 0 "Stationary1" "None" (by decide)⟩

/-- C10: while every CAN message seen so far had payload length < 6 (or
none arrived), every poll returns the initial placeholder cache — all
three display fields `"No Data"` and `externalSensorValid = false` — and
any record the streamer emits in that period carries `"No Data"` in the
fuel and temperature columns. -/
theorem C10_no_data_before_first_frame (msgs : List (Option (List Byte)))
    (h : ∀ f : List Byte, some f ∈ msgs → f.length < 6) :
    msgs.foldl readCANData noData = noData
  ∧ ∀ (p : ℚ) (e : ℕ) (ph d : String), isInvalidPitch p = false →
      streamCSVData p (msgs.foldl readCANData noData) e ph d =
        some ⟨e, "No Data", "No Data", "No Data", p, ph, d⟩ := by
  have hfold : ∀ ms : List (Option (List Byte)),
      (∀ f : List Byte, some f ∈ ms → f.length < 6) →
      ms.foldl readCANData noData = noData := by
    intro ms hms
    induction ms with
    | nil => rfl
    | cons m rest ih =>
      have hm : readCANData noData m = noData := by
        cases m with
        | none => rfl
        | some frame =>
          have hf : frame.length < 6 := hms frame (by simp)
          simp [readCANData, not_le.mpr hf]
      rw [List.foldl_cons, hm]
      exact ih fun f hf => hms f (by simp [hf])
  have h0 := hfold msgs h
  refine ⟨h0, ?_⟩
  intro p e ph d hp
  have hnot : ¬(p = -999 ∨ p < -25 ∨ p > 25) := by
    simpa [isInvalidPitch] using hp
  push_neg at hnot
  rw [h0]
  simp [streamCSVData, noData, hnot.1, hnot.2.1, hnot.2.2]

/-- Witness for C10: two pre-frame polls (no message, then a 3-byte
message), then an accepted pitch sample of 0°. -/
theorem C10_witness :
    ([none, some [1, 2, 3]] : List (Option (List Byte))).foldl readCANData noData =
      noData ∧
    streamCSVData 0
        (([none, some [1, 2, 3]] : List (Option (List Byte))).foldl readCANData noData)
        5 "Stationary1" "None" =
      some ⟨5, "No Data", "No Data", "No Data", 0, "Stationary1", "None"⟩ := by
  have h := C10_no_data_before_first_frame [none, some [1, 2, 3]]
    (by intro f hf; simp at hf; subst hf; decide)
  exact ⟨h.1, h.2 0 5 "Stationary1" "None" (by decide)⟩

/-- C4 counterexample: the zero-pitch centering loop keeps driving at
0.11° and stops driving only within ±0.1°, exactly like the ±5/±10
variants at their band edges — its acceptance band is not strictly wider
than the 0.1° band. -/
theorem C4_counterexample :
    zeroOutOfBand (11/100) = true ∧ zeroOutOfBand (1/10) = false ∧
    posFiveOutOfBand (5 + 11/100) = true ∧ posFiveOutOfBand (5 + 1/10) = false := by
  refine ⟨?_, ?_, ?_, ?_⟩
  · apply decide_eq_true
    rw [abs_of_pos (by norm_num : (0 : ℚ) < 11/100)]
    norm_num
  · apply decide_eq_false
    rw [abs_of_pos (by norm_num : (0 : ℚ) < 1/10)]
    exact lt_irrefl _
  · exact decide_eq_true (Or.inr (by norm_num))
  · apply decide_eq_false
    rintro (h | h) <;> norm_num at h

/-- C4 amended: every target, the zeroing variant included, uses the
same 0.1° tolerance: the zeroing loop accepts exactly `[-0.1, 0.1]`, and
each of the four other bands is precisely that band translated to its
target angle. -/
theorem C4_amended (p : ℚ) :
    (zeroOutOfBand p = false ↔ -(1/10) ≤ p ∧ p ≤ 1/10)
  ∧ posFiveOutOfBand (5 + p) = zeroOutOfBand p
  ∧ negFiveOutOfBand (-5 + p) = zeroOutOfBand p
  ∧ posTenOutOfBand (10 + p) = zeroOutOfBand p
  ∧ negTenOutOfBand (-10 + p) = zeroOutOfBand p := by
  have habs : (|p| > 1/10) ↔ (1/10 < p ∨ 1/10 < -p) := lt_abs
  refine ⟨?_, ?_, ?_, ?_, ?_⟩
  · simp [zeroOutOfBand, abs_le, not_lt]
  all_goals
    simp only [posFiveOutOfBand, negFiveOutOfBand, posTenOutOfBand, negTenOutOfBand,
      zeroOutOfBand, decide_eq_decide, habs]
  all_goals
    constructor
    · rintro (h | h)
      · exact Or.inr (by linarith)
      · exact Or.inl (by linarith)
    · rintro (h | h)
      · exact Or.inr (by linarith)
      · exact Or.inl (by linarith)

/-- C7 counterexample: with 11 bytes buffered whose first byte fails the
sync check, `readPitch` consumes only the single sync byte (10 bytes
remain, not 1 as whole-frame discard would leave); and a complete,
perfectly valid 10-byte frame buffered on its own is neither decoded nor
consumed, because the firmware waits for an 11th byte. -/
theorem C7_counterexample :
    (readPitch [0, 0x55, 0x53, 0, 0, 0, 0, 0, 0, 0, 0]).2.length = 10 ∧
    ¬(readPitch [0, 0x55, 0x53, 0, 0, 0, 0, 0, 0, 0, 0]).2.length = 1 ∧
    readPitch [0x55, 0x53, 0, 0, 0, 0, 0, 0, 0, 0] =
      (invalidPitch, [0x55, 0x53, 0, 0, 0, 0, 0, 0, 0, 0]) := by
  decide

/-- C7 amended: with fewer than 11 buffered bytes — the firmware's
availability threshold, one full 10-byte frame plus one byte — the read
returns the invalid sample and consumes nothing (in particular an exact
full frame stays buffered); with ≥ 11 bytes, a failing sync check
consumes exactly one byte, and a passing sync with a failing frame-type
check consumes the full 10-byte frame; every failing case returns the
invalid sample. -/
theorem C7_amended :
    (∀ buf : List Byte, buf.length < 11 → readPitch buf = (invalidPitch, buf))
  ∧ (∀ (header : Byte) (rest : List Byte), 11 ≤ (header :: rest).length →
      header ≠ 0x55 → readPitch (header :: rest) = (invalidPitch, rest))
  ∧ (∀ (b1 : Byte) (rest : List Byte), 11 ≤ (0x55 :: b1 :: rest).length →
      b1 ≠ 0x53 →
      readPitch (0x55 :: b1 :: rest) = (invalidPitch, (b1 :: rest).drop 9)) := by
  refine ⟨?_, ?_, ?_⟩
  · intro buf h
    rw [readPitch.eq_def, if_neg (by omega)]
  · intro header rest hlen hheader
    rw [readPitch, if_pos hlen]
    exact if_neg hheader
  · intro b1 rest hlen hb1
    rw [readPitch, if_pos hlen]
    show (if b1 = (0x53 : Byte) then _ else ((invalidPitch, (b1 :: rest).drop 9) : ℚ × List Byte)) =
      (invalidPitch, (b1 :: rest).drop 9)
    exact if_neg hb1

/-- Witness for C7 at a 5-byte buffer, an 11-byte buffer with bad sync,
and an 11-byte buffer with good sync but a non-angle frame type. -/
theorem C7_witness :
    readPitch [0x55, 0x53, 1, 2, 3] = (invalidPitch, [0x55, 0x53, 1, 2, 3]) ∧
    readPitch [0x54, 0x55, 0x53, 0, 0, 0, 0, 0, 0, 0, 0] =
      (invalidPitch, [0x55, 0x53, 0, 0, 0, 0, 0, 0, 0, 0]) ∧
    readPitch [0x55, 0x51, 0, 0, 0, 0, 0, 0, 0, 0, 0] =
      (invalidPitch, (([0x51, 0, 0, 0, 0, 0, 0, 0, 0, 0] : List Byte)).drop 9) :=
  ⟨C7_amended.1 [0x55, 0x53, 1, 2, 3] (by decide),
   C7_amended.2.1 0x54 [0x55, 0x53, 0, 0, 0, 0, 0, 0, 0, 0] (by decide) (by decide),
   C7_amended.2.2 0x51 [0, 0, 0, 0, 0, 0, 0, 0, 0] (by decide) (by decide)⟩

/-- C2: against an angle source that never yields a valid in-envelope
sample, any adjustment routine polls the reader exactly 1000 times, with
the 10 ms retry delay after each failed attempt (10000 ms total), then
returns the initial-read failure outcome having issued zero motor
commands, leaving a stopped actuator stopped. -/
theorem C2_initial_read_timeout (outOfBand : ℚ → Bool)
    (chooseDir : ℚ → Option MotorDir) (windowPolls : ℕ) (src : ℕ → ℚ)
    (fuel n0 : ℕ) (hsrc : ∀ k, isInvalidPitch (src k) = true) :
    driveToTarget outOfBand chooseDir windowPolls src fuel n0 =
      (Outcome.initialReadFailed, [], n0 + 1000)
  ∧ (acquirePitch src n0).next = n0 + 1000
  ∧ (acquirePitch src n0).elapsedMs = 1000 * retryDelayMs
  ∧ driveCount (driveToTarget outOfBand chooseDir windowPolls src fuel n0).2.1 = 0
  ∧ execTrace MotorState.stopped
      (driveToTarget outOfBand chooseDir windowPolls src fuel n0).2.1 =
      MotorState.stopped := by
  obtain ⟨h1, h2, h3⟩ := acquirePitchAux_all_invalid src hsrc 1000 n0 0 invalidPitch
    (by decide)
  have hacq : (acquirePitch src n0).next = n0 + 1000 ∧
      (acquirePitch src n0).elapsedMs = 1000 * retryDelayMs ∧
      isInvalidPitch (acquirePitch src n0).pitch = true := by
    rw [acquirePitch, show maxTimeout = 1000 from rfl]
    exact ⟨h2, by rw [h3]; simp [retryDelayMs], h1⟩
  have hdt : driveToTarget outOfBand chooseDir windowPolls src fuel n0 =
      (Outcome.initialReadFailed, [], n0 + 1000) := by
    rw [driveToTarget, if_pos hacq.2.2, hacq.1]
  refine ⟨hdt, hacq.1, hacq.2.1, ?_, ?_⟩
  · rw [hdt]; rfl
  · rw [hdt]; rfl

/-- Witness for C2: the constant invalid source. -/
theorem C2_witness :
    (∀ k : ℕ, isInvalidPitch ((fun _ : ℕ => invalidPitch) k) = true) ∧
    driveToTarget posFiveOutOfBand posFiveDir 20 (fun _ : ℕ => invalidPitch) 50 0 =
      (Outcome.initialReadFailed, [], 0 + 1000) := by
  have hinv : isInvalidPitch invalidPitch = true := by decide
  have hk : ∀ k : ℕ, isInvalidPitch ((fun _ : ℕ => invalidPitch) k) = true :=
    fun _ => hinv
  exact ⟨hk,
    (C2_initial_read_timeout posFiveOutOfBand posFiveDir 20
      (fun _ : ℕ => invalidPitch) 50 0 hk).1⟩

/-- The synthetic angle source of the convergence scenario: 8.0° on the
first three polls, 10.05° on every poll thereafter. -/
def c3Src : ℕ → ℚ := fun n => if n < 3 then 8 else 201/20

/-- C3: against `c3Src`, driving to +10° with the 0.1° band issues
exactly one motion pulse — one drive command, then its stop, then only
the final stop — and returns `reached` with final sampled angle 10.05°.
The windows of the single pulse consume at least two telemetry polls
(the firmware's 200 ms + 1000 ms windows at the 10 ms cadence perform
about 120), and at least two loop iterations' fuel is available. -/
theorem C3_single_pulse_convergence (windowPolls fuel : ℕ)
    (hw : 2 ≤ windowPolls) (hf : 2 ≤ fuel) :
    adjustToPosTenPitch c3Src fuel windowPolls 0 =
      (Outcome.reached (201/20),
        [MotorCmd.drive MotorDir.backward, MotorCmd.stop, MotorCmd.stop],
        windowPolls + 2)
  ∧ driveCount (adjustToPosTenPitch c3Src fuel windowPolls 0).2.1 = 1 := by
  obtain ⟨f, rfl⟩ : ∃ f, fuel = f + 2 := ⟨fuel - 2, by omega⟩
  have h8inv : isInvalidPitch 8 = false := by decide
  have h8band : posTenOutOfBand 8 = true :=
    decide_eq_true (Or.inl (by norm_num))
  have h8dir : posTenDir 8 = some MotorDir.backward := by
    rw [posTenDir, if_neg (by norm_num), if_pos (by norm_num)]
  have hvinv : isInvalidPitch (201/20 : ℚ) = false := by
    apply decide_eq_false
    rintro (h | h | h) <;> norm_num at h
  have hvband : posTenOutOfBand (201/20 : ℚ) = false := by
    apply decide_eq_false
    rintro (h | h) <;> norm_num at h
  have ha0 : acquirePitch c3Src 0 = ⟨8, 1, 0⟩ := by
    rw [acquirePitch_first_valid c3Src 0 (by rw [show c3Src 0 = 8 from rfl]; exact h8inv)]
    rfl
  have hv : c3Src (1 + windowPolls) = 201/20 := by
    have h3 : ¬(1 + windowPolls < 3) := by omega
    simp [c3Src, h3]
  have ha1 : acquirePitch c3Src (1 + windowPolls) = ⟨201/20, 1 + windowPolls + 1, 0⟩ := by
    rw [acquirePitch_first_valid c3Src _ (by rw [hv]; exact hvinv), hv]
  have hmain : adjustToPosTenPitch c3Src (f + 2) windowPolls 0 =
      (Outcome.reached (201/20),
        [MotorCmd.drive MotorDir.backward, MotorCmd.stop, MotorCmd.stop],
        windowPolls + 2) := by
    rw [adjustToPosTenPitch, driveToTarget, ha0]
    simp only [adjustLoop, ha1, h8inv, h8band, h8dir, hvinv, hvband,
      Bool.false_eq_true, if_false, if_true,
      List.cons_append, List.nil_append, Prod.mk.injEq]
    exact ⟨trivial, trivial, by omega⟩
  refine ⟨hmain, ?_⟩
  rw [hmain]
  rfl

/-- Witness for C3 at 20 window polls (one 200 ms pulse window at the
10 ms cadence) and fuel 2. -/
theorem C3_witness :
    (2 ≤ 20 ∧ 2 ≤ 2) ∧
    adjustToPosTenPitch c3Src 2 20 0 =
      (Outcome.reached (201/20),
        [MotorCmd.drive MotorDir.backward, MotorCmd.stop, MotorCmd.stop],
        20 + 2) :=
  ⟨⟨by decide, by decide⟩,
    (C3_single_pulse_convergence 20 2 (by decide) (by decide)).1⟩

/-- C9: the actuator is always in exactly one of the three states
(forward / backward / stopped, with three pairwise distinct pin
configurations), and in every trace any adjustment routine — or a whole
test cycle — can produce, between any two drive commands there is an
intervening stop command. -/
theorem C9_motor_discipline :
    (∀ (outOfBand : ℚ → Bool) (chooseDir : ℚ → Option MotorDir)
        (windowPolls : ℕ) (src : ℕ → ℚ) (fuel n0 : ℕ),
      wellSeparated (driveToTarget outOfBand chooseDir windowPolls src fuel n0).2.1 = true)
  ∧ (∀ (src : ℕ → ℚ) (fuel windowPolls : ℕ),
      wellSeparated (testCycleTrace src fuel windowPolls) = true)
  ∧ (∀ s : MotorState, s = MotorState.movingForward ∨ s = MotorState.movingBackward ∨
      s = MotorState.stopped)
  ∧ (pinsOf MotorState.movingForward ≠ pinsOf MotorState.movingBackward ∧
      pinsOf MotorState.movingForward ≠ pinsOf MotorState.stopped ∧
      pinsOf MotorState.movingBackward ≠ pinsOf MotorState.stopped) := by
  refine ⟨?_, ?_, ?_, by decide⟩
  · intro outOfBand chooseDir windowPolls src fuel n0
    exact pulsesOnly_sepFrom _
      (driveToTarget_pulsesOnly outOfBand chooseDir windowPolls src fuel n0)
  · intro src fuel windowPolls
    apply pulsesOnly_sepFrom
    simp only [testCycleTrace, adjustToZeroPitch, adjustToPosFivePitch,
      adjustToNegFivePitch, adjustToPosTenPitch, adjustToNegTenPitch,
      returnToZeroPitch]
    rw [pulsesOnly_stop_cons]
    exact pulsesOnly_glue
      (pulsesOnly_append _ _ (driveToTarget_pulsesOnly _ _ _ _ _ _)
        (driveToTarget_pulsesOnly _ _ _ _ _ _))
      (pulsesOnly_glue (driveToTarget_pulsesOnly _ _ _ _ _ _)
        (pulsesOnly_glue (driveToTarget_pulsesOnly _ _ _ _ _ _)
          (pulsesOnly_glue (driveToTarget_pulsesOnly _ _ _ _ _ _)
            (driveToTarget_pulsesOnly _ _ _ _ _ _))))
  · intro s
    cases s
    · exact Or.inl rfl
    · exact Or.inr (Or.inl rfl)
    · exact Or.inr (Or.inr rfl)

end FuelTable
